import Mathlib

/-!
Shallow embedding of the shop_core multi-tenant cache/coordination layer.

The Redis backend is modelled as a single keyspace mapping keys to typed
entries (byte-string or set) with an optional absolute expiry, together with
a clock counted in seconds.  Expiry is passive: an entry whose expiry time
has been reached is invisible to every lookup, exactly as callers observe
Redis's lazy expiration.  Commands that can fail at runtime in Redis
(WRONGTYPE, non-integer INCR target) return Except.
-/

namespace Shop

/-- JSON values, used to model what `JSON.stringify` / `JSON.parse` move in
and out of the store.  Numbers are restricted to integers (the repository
only ever serializes structured data, and no claim depends on float
formatting). -/
inductive Json where
  | null
  | bool (b : Bool)
  | num (n : Int)
  | str (s : String)
  | arr (elems : List Json)
  | obj (fields : List (String × Json))

/-- JS `x !== null` test on a decoded JSON value. -/
def Json.isNull : Json → Bool
  | .null => true
  | _ => false

/-- Abstraction of the byte strings stored under Redis string keys.
`json j` stands for exactly the bytes `JSON.stringify j` (which always parse
back to `j` and are never empty); `notJson s` stands for raw bytes `s` that
are not the serialization of any JSON value.  Real `JSON.parse` would accept
a few raw strings this model rejects (e.g. digit strings), but every counter
and lock value the code writes is represented here through the `json`
constructor, so that case is never reached by the code under verification. -/
inductive StoredVal where
  | json (j : Json)
  | notJson (s : String)

/-- JS falsiness of the stored byte string (`!value`): only the empty string
is falsy, and `JSON.stringify` output is never empty. -/
def StoredVal.isFalsy : StoredVal → Bool
  | .json _ => false
  | .notJson s => s == ""

/-- `JSON.parse` on the stored bytes, `none` meaning the parse throws. -/
def StoredVal.parseJson : StoredVal → Option Json
  | .json j => some j
  | .notJson _ => none

/-- Redis's integer reading of the stored bytes, as used by INCR.  The
serialization of `Json.num n` is the decimal form of `n`; no other
`stringify` image is a bare integer. -/
def StoredVal.asInt : StoredVal → Option Int
  | .json (.num n) => some n
  | .json _ => none
  | .notJson s => s.toInt?

/-- A Redis value: a byte string or a set of member strings. -/
inductive RVal where
  | str (v : StoredVal)
  | sset (members : List String)

/-- One keyspace entry: its value and its optional absolute expiry time
(seconds on the model clock). -/
structure Entry where
  val : RVal
  expireAt : Option Nat

/-- The entry is visible at time `now` (no expiry, or expiry still ahead). -/
def Entry.liveAt (e : Entry) (now : Nat) : Bool :=
  match e.expireAt with
  | none => true
  | some t => now < t

/-- The whole store: keyspace plus current time in seconds. -/
structure RedisState where
  store : String → Option Entry
  now : Nat

/-- The store with nothing in it, at time zero. -/
def emptyState : RedisState := { store := fun _ => none, now := 0 }

/-- Lookup that hides expired entries, as every Redis command observes. -/
def RedisState.lookup (s : RedisState) (k : String) : Option Entry :=
  match s.store k with
  | none => none
  | some e => if e.liveAt s.now then some e else none

/-- Overwrite the entry at `k`. -/
def RedisState.setEntry (s : RedisState) (k : String) (e : Entry) : RedisState :=
  { store := fun k' => if k' = k then some e else s.store k', now := s.now }

/-- Remove the entry at `k`. -/
def RedisState.removeKey (s : RedisState) (k : String) : RedisState :=
  { store := fun k' => if k' = k then none else s.store k', now := s.now }

/-- Let `dt` seconds pass. -/
def RedisState.tick (s : RedisState) (dt : Nat) : RedisState :=
  { store := s.store, now := s.now + dt }

@[simp] theorem RedisState.setEntry_store (s : RedisState) (k : String) (e : Entry) (k' : String) :
    (s.setEntry k e).store k' = if k' = k then some e else s.store k' := rfl

@[simp] theorem RedisState.setEntry_now (s : RedisState) (k : String) (e : Entry) :
    (s.setEntry k e).now = s.now := rfl

@[simp] theorem RedisState.removeKey_store (s : RedisState) (k : String) (k' : String) :
    (s.removeKey k).store k' = if k' = k then none else s.store k' := rfl

@[simp] theorem RedisState.removeKey_now (s : RedisState) (k : String) :
    (s.removeKey k).now = s.now := rfl

@[simp] theorem RedisState.tick_store (s : RedisState) (dt : Nat) :
    (s.tick dt).store = s.store := rfl

@[simp] theorem RedisState.tick_now (s : RedisState) (dt : Nat) :
    (s.tick dt).now = s.now + dt := rfl

/-- GET: the byte string at `k`, `none` for a missing/expired key,
error on a set-typed key (WRONGTYPE). -/
def RedisState.cmdGet (s : RedisState) (k : String) : Except String (Option StoredVal) :=
  match s.lookup k with
  | none => .ok none
  | some e =>
    match e.val with
    | .str v => .ok (some v)
    | .sset _ => .error "WRONGTYPE"

/-- Plain SET: stores the value and clears any expiry. -/
def RedisState.cmdSet (s : RedisState) (k : String) (v : StoredVal) : RedisState :=
  s.setEntry k { val := .str v, expireAt := none }

/-- SETEX: stores the value with expiry `t` seconds from now. -/
def RedisState.cmdSetex (s : RedisState) (k : String) (t : Nat) (v : StoredVal) : RedisState :=
  s.setEntry k { val := .str v, expireAt := some (s.now + t) }

/-- SET k v EX t NX: succeeds only when `k` is absent (or expired). -/
def RedisState.cmdSetNxEx (s : RedisState) (k : String) (v : StoredVal) (t : Nat) :
    Bool × RedisState :=
  match s.lookup k with
  | some _ => (false, s)
  | none => (true, s.setEntry k { val := .str v, expireAt := some (s.now + t) })

/-- DEL over a list of keys: removes each, counting those that existed. -/
def RedisState.cmdDel : RedisState → List String → Nat × RedisState
  | s, [] => (0, s)
  | s, k :: ks =>
    let n : Nat := if (s.lookup k).isSome then 1 else 0
    let r := RedisState.cmdDel (s.removeKey k) ks
    (n + r.1, r.2)

/-- EXISTS. -/
def RedisState.cmdExists (s : RedisState) (k : String) : Bool :=
  (s.lookup k).isSome

/-- EXPIRE: re-arms the expiry of a live key; false when the key is absent. -/
def RedisState.cmdExpire (s : RedisState) (k : String) (secs : Nat) : Bool × RedisState :=
  match s.lookup k with
  | none => (false, s)
  | some e => (true, s.setEntry k { val := e.val, expireAt := some (s.now + secs) })

/-- TTL: -2 for a missing key, -1 for no expiry, else remaining seconds. -/
def RedisState.cmdTtl (s : RedisState) (k : String) : Int :=
  match s.lookup k with
  | none => -2
  | some e =>
    match e.expireAt with
    | none => -1
    | some t => (t : Int) - (s.now : Int)

/-- INCR: creates a fresh counter at 1 with no expiry, or parses and bumps
the stored integer keeping its expiry; errors on non-integer bytes or a
set-typed key. -/
def RedisState.cmdIncr (s : RedisState) (k : String) : Except String (Int × RedisState) :=
  match s.lookup k with
  | none => .ok (1, s.setEntry k { val := .str (.json (.num 1)), expireAt := none })
  | some e =>
    match e.val with
    | .sset _ => .error "WRONGTYPE"
    | .str v =>
      match v.asInt with
      | none => .error "ERR value is not an integer or out of range"
      | some n =>
        .ok (n + 1, s.setEntry k { val := .str (.json (.num (n + 1))), expireAt := e.expireAt })

/-- SADD of a single member: creates the set (no expiry) when the key is
absent, otherwise appends the member if new, keeping the expiry; errors on a
string-typed key (WRONGTYPE). -/
def RedisState.cmdSadd (s : RedisState) (k : String) (m : String) :
    Except String (Nat × RedisState) :=
  match s.lookup k with
  | none => .ok (1, s.setEntry k { val := .sset [m], expireAt := none })
  | some e =>
    match e.val with
    | .str _ => .error "WRONGTYPE"
    | .sset ms =>
      if m ∈ ms then .ok (0, s)
      else .ok (1, s.setEntry k { val := .sset (ms ++ [m]), expireAt := e.expireAt })

/-- SMEMBERS: the member list, `[]` for a missing key, error on WRONGTYPE. -/
def RedisState.cmdSmembers (s : RedisState) (k : String) : Except String (List String) :=
  match s.lookup k with
  | none => .ok []
  | some e =>
    match e.val with
    | .str _ => .error "WRONGTYPE"
    | .sset ms => .ok ms

/-! Constants from src/src/constants.ts. -/

namespace CACHE_TTL

def SHORT : Nat := 300

def MEDIUM : Nat := 600

def LONG : Nat := 3600

def DAY : Nat := 86400

def WEEK : Nat := 604800

end CACHE_TTL

/-- REDIS_KEYS.RATE_LIMIT from src/src/constants.ts. -/
def REDIS_KEYS.RATE_LIMIT (key : String) : String := "rate_limit:" ++ key

/-!
RedisService (src/unnamed/part_002): thin wrappers over the store commands.
The model clock stands for wall time; `Date.now()` is the clock in
milliseconds, i.e. `now * 1000`.
-/

namespace RedisService

/-- `get(key)`. -/
def get (s : RedisState) (key : String) : Except String (Option StoredVal) :=
  s.cmdGet key

/-- `set(key, value, ttl?)`: `if (ttl)` — a missing ttl and the falsy `0`
both take the plain-SET branch. -/
def set (s : RedisState) (key : String) (value : StoredVal) (ttl : Option Nat) : RedisState :=
  match ttl with
  | some t => if t = 0 then s.cmdSet key value else s.cmdSetex key t value
  | none => s.cmdSet key value

/-- `del(keys)`. -/
def del (s : RedisState) (keys : List String) : Nat × RedisState :=
  s.cmdDel keys

/-- `exists(key)`: `result === 1`. -/
def redisExists (s : RedisState) (key : String) : Bool :=
  s.cmdExists key

/-- `expire(key, seconds)`: `result === 1`. -/
def expire (s : RedisState) (key : String) (seconds : Nat) : Bool × RedisState :=
  s.cmdExpire key seconds

/-- `ttl(key)`. -/
def ttl (s : RedisState) (key : String) : Int :=
  s.cmdTtl key

/-- `getJSON(key)`: null for a missing key or falsy bytes, the parsed value
otherwise, null again when the parse throws.  The JS value `null` is
represented by `Json.null`. -/
def getJSON (s : RedisState) (key : String) : Except String Json :=
  match s.cmdGet key with
  | .error e => .error e
  | .ok none => .ok .null
  | .ok (some v) =>
    if v.isFalsy then .ok .null
    else
      match v.parseJson with
      | some j => .ok j
      | none => .ok .null

/-- `setJSON(key, value, ttl?)`: stringify then `set`. -/
def setJSON (s : RedisState) (key : String) (value : Json) (ttl : Option Nat) : RedisState :=
  set s key (.json value) ttl

/-- `incr(key)`. -/
def incr (s : RedisState) (key : String) : Except String (Int × RedisState) :=
  s.cmdIncr key

/-- `sadd(key, member)` (the repository always adds one member at a time). -/
def sadd (s : RedisState) (key : String) (member : String) : Except String (Nat × RedisState) :=
  s.cmdSadd key member

/-- `smembers(key)`. -/
def smembers (s : RedisState) (key : String) : Except String (List String) :=
  s.cmdSmembers key

/-- The record `checkRateLimit` resolves with. -/
structure RateLimitResult where
  allowed : Bool
  remaining : Int
  resetAt : Int

/-- `checkRateLimit(key, limit, window)`: INCR the window counter, arm the
expiry only when the counter just became 1, then read the TTL back for
`resetAt = Date.now() + ttl * 1000`. -/
def checkRateLimit (s : RedisState) (key : String) (limit : Int) (window : Nat) :
    Except String (RateLimitResult × RedisState) :=
  let redisKey := REDIS_KEYS.RATE_LIMIT key
  match s.cmdIncr redisKey with
  | .error e => .error e
  | .ok (current, s1) =>
    let s2 := if current = 1 then (s1.cmdExpire redisKey window).2 else s1
    let t := s2.cmdTtl redisKey
    let resetAt : Int := (s2.now : Int) * 1000 + t * 1000
    .ok ({ allowed := current ≤ limit, remaining := max 0 (limit - current), resetAt := resetAt }, s2)

/-- `acquireLock(key, ttl)`: SET lock:key identifier EX ttl NX, where the
identifier is `Date.now().toString()` — bytes that coincide with the decimal
serialization of the clock. -/
def acquireLock (s : RedisState) (key : String) (ttl : Nat) : Bool × RedisState :=
  let lockKey := "lock:" ++ key
  let identifier : StoredVal := .json (.num (s.now : Int))
  s.cmdSetNxEx lockKey identifier ttl

/-- `releaseLock(key)`: DEL lock:key, `result > 0`. -/
def releaseLock (s : RedisState) (key : String) : Bool × RedisState :=
  let lockKey := "lock:" ++ key
  let r := s.cmdDel [lockKey]
  (decide (0 < r.1), r.2)

end RedisService

/-! CacheService (src/src/services/cache.service.ts). -/

/-- Modelled from the spec: `generateTenantCachePrefix` lives in the
`@shopen/utils` package, outside this repository's sources.  Per §4.3 the
effective key is `prefix(tenant) + key` with a collision-free,
per-tenant-distinct prefix from the same derivation family as namespace
names. -/
def generateTenantCachePrefix (tenantId : String) : String :=
  "tenant_cache:" ++ tenantId ++ ":"

/-- `CacheOptions`. -/
structure CacheOptions where
  ttl : Option Nat := none
  tenant : Option String := none
  tags : Option (List String) := none

/-- `options?.tenant`. -/
def optTenant (options : Option CacheOptions) : Option String :=
  match options with
  | some o => o.tenant
  | none => none

/-- `options?.ttl`. -/
def optTtl (options : Option CacheOptions) : Option Nat :=
  match options with
  | some o => o.ttl
  | none => none

/-- `options?.tags`. -/
def optTags (options : Option CacheOptions) : Option (List String) :=
  match options with
  | some o => o.tags
  | none => none

namespace CacheService

/-- `generateKey(key, tenantId?)`. -/
def generateKey (key : String) (tenantId : Option String) : String :=
  match tenantId with
  | some t => generateTenantCachePrefix t ++ key
  | none => key

/-- `get(key, options?)`. -/
def get (s : RedisState) (key : String) (options : Option CacheOptions) : Except String Json :=
  RedisService.getJSON s (generateKey key (optTenant options))

/-- `addToTags(key, tags, tenantId?)`: for each tag, SADD the (already
prefixed) cache key into the tag set and re-arm the tag set's one-day
expiry. -/
def addToTags (s : RedisState) (key : String) (tags : List String) (tenantId : Option String) :
    Except String RedisState :=
  match tags with
  | [] => .ok s
  | tag :: rest =>
    let tagKey := generateKey ("tag:" ++ tag) tenantId
    match RedisService.sadd s tagKey key with
    | .error e => .error e
    | .ok (_, s1) =>
      let s2 := (RedisService.expire s1 tagKey CACHE_TTL.DAY).2
      addToTags s2 key rest tenantId

/-- `set(key, value, options?)`: `const ttl = options?.ttl || CACHE_TTL.MEDIUM`
(so a missing ttl and the falsy `0` both fall back to the 600-second
default), then setJSON and, when tags were given, addToTags.  A JS array is
truthy even when empty, so `if (options?.tags)` only tests presence. -/
def set (s : RedisState) (key : String) (value : Json) (options : Option CacheOptions) :
    Except String RedisState :=
  let cacheKey := generateKey key (optTenant options)
  let ttl :=
    match optTtl options with
    | some t => if t = 0 then CACHE_TTL.MEDIUM else t
    | none => CACHE_TTL.MEDIUM
  let s1 := RedisService.setJSON s cacheKey value (some ttl)
  match optTags options with
  | some tags => addToTags s1 cacheKey tags (optTenant options)
  | none => .ok s1

/-- `invalidateTag(tag, tenantId?)`: read the tag set's members, delete them
all, then delete the tag set, returning how many member keys were
deleted. -/
def invalidateTag (s : RedisState) (tag : String) (tenantId : Option String) :
    Except String (Nat × RedisState) :=
  let tagKey := generateKey ("tag:" ++ tag) tenantId
  match RedisService.smembers s tagKey with
  | .error e => .error e
  | .ok keys =>
    if keys.length = 0 then .ok (0, s)
    else
      let r1 := RedisService.del s keys
      let r2 := RedisService.del r1.2 [tagKey]
      .ok (r1.1, r2.2)

/-- `getOrSet(key, factory, options?)`: cache-aside.  The factory is
modelled as a state-passing function so that its invocations are
observable: each invocation consumes one factory state. -/
def getOrSet {σ : Type} (s : RedisState) (key : String)
    (factory : σ → Json × σ) (fs : σ) (options : Option CacheOptions) :
    Except String (Json × RedisState × σ) :=
  match get s key options with
  | .error e => .error e
  | .ok cached =>
    if cached.isNull then
      let r := factory fs
      match set s key r.1 options with
      | .error e => .error e
      | .ok s1 => .ok (r.1, s1, r.2)
    else .ok (cached, s, fs)

/-- `rememberForever(key, factory, tenantId?)`: cache-aside that stores with
no TTL on a miss. -/
def rememberForever {σ : Type} (s : RedisState) (key : String)
    (factory : σ → Json × σ) (fs : σ) (tenantId : Option String) :
    Except String (Json × RedisState × σ) :=
  match get s key (some { tenant := tenantId }) with
  | .error e => .error e
  | .ok cached =>
    if cached.isNull then
      let r := factory fs
      let cacheKey := generateKey key tenantId
      let s1 := RedisService.setJSON s cacheKey r.1 none
      .ok (r.1, s1, r.2)
    else .ok (cached, s, fs)

end CacheService

/-! PrismaService (src/src/services/prisma.service.ts). -/

/-- Modelled from the spec: `generateSchemaName` lives in the
`@shopen/utils` package, outside this repository's sources.  Per §4.2 it is
a fixed-prefix, collision-free encoding of the tenant id. -/
def generateSchemaName (tenantId : String) : String :=
  "tenant_" ++ tenantId

/-- The per-call Prisma client `withTenant` creates: whether it is still
connected, and the search path its connection was switched to. -/
structure TenantPrismaClient where
  searchPath : Option (List String)
  connected : Bool

namespace PrismaService

/-- The client as `fn` receives it inside `withTenant tenantId`: freshly
created, search path switched to the tenant schema. -/
def scopedClient (tenantId : String) : TenantPrismaClient :=
  { searchPath := some [generateSchemaName tenantId, "shared", "public"], connected := true }

/-- `withTenant(tenantId, callback)`: create a dedicated client, SET
search_path to the tenant schema, run the callback in a try block whose
finally always disconnects the client, and return (or re-throw) the
callback's outcome.  Result: the propagated outcome and the client as it is
after the finally block. -/
def withTenant {ε α : Type} (tenantId : String)
    (callback : TenantPrismaClient → Except ε α) : Except ε α × TenantPrismaClient :=
  let tenantPrisma := scopedClient tenantId
  let result := callback tenantPrisma
  (result, { tenantPrisma with connected := false })

end PrismaService

/-! Helper lemmas about the store. -/

theorem RedisState.lookup_setEntry (s : RedisState) (k : String) (e : Entry) (k' : String) :
    (s.setEntry k e).lookup k' =
      if k' = k then (if e.liveAt s.now then some e else none) else s.lookup k' := by
  by_cases h : k' = k <;> simp [RedisState.lookup, RedisState.setEntry, h]

theorem RedisState.cmdDel_now (keys : List String) (s : RedisState) :
    (RedisState.cmdDel s keys).2.now = s.now := by
  induction keys generalizing s with
  | nil => rfl
  | cons k ks ih => simpa [RedisState.cmdDel] using ih (s.removeKey k)

theorem RedisState.cmdDel_store (keys : List String) (s : RedisState) (k : String) :
    (RedisState.cmdDel s keys).2.store k = if k ∈ keys then none else s.store k := by
  induction keys generalizing s with
  | nil => simp [RedisState.cmdDel]
  | cons k' ks ih =>
    simp only [RedisState.cmdDel]
    rw [ih]
    by_cases h1 : k = k' <;> by_cases h2 : k ∈ ks <;>
      simp [RedisState.removeKey, h1, h2, List.mem_cons]

@[simp] theorem RedisState.lookup_setEntry_self (s : RedisState) (k : String) (e : Entry) :
    (s.setEntry k e).lookup k = if e.liveAt s.now then some e else none := by
  simp [RedisState.lookup_setEntry]

theorem RedisState.tick_zero (s : RedisState) : s.tick 0 = s := by
  simp [RedisState.tick]

theorem RedisState.cmdIncr_fresh (s : RedisState) (k : String) (h : s.lookup k = none) :
    s.cmdIncr k = .ok (1, s.setEntry k { val := .str (.json (.num 1)), expireAt := none }) := by
  simp [RedisState.cmdIncr, h]

theorem RedisState.cmdIncr_num (s : RedisState) (k : String) (n : Int) (exp : Option Nat)
    (h : s.lookup k = some { val := .str (.json (.num n)), expireAt := exp }) :
    s.cmdIncr k
      = .ok (n + 1, s.setEntry k { val := .str (.json (.num (n + 1))), expireAt := exp }) := by
  simp [RedisState.cmdIncr, h, StoredVal.asInt]

theorem RedisState.cmdExpire_live (s : RedisState) (k : String) (e : Entry) (secs : Nat)
    (h : s.lookup k = some e) :
    s.cmdExpire k secs = (true, s.setEntry k { val := e.val, expireAt := some (s.now + secs) }) := by
  simp [RedisState.cmdExpire, h]

/-- Scenario driver: run `checkRateLimit` once per listed gap, letting the
gap's seconds pass before each call, collecting each result's
(allowed, remaining) pair and the final state. -/
def rlRun (s : RedisState) (key : String) (limit : Int) (window : Nat) :
    List Nat → Except String (List (Bool × Int) × RedisState)
  | [] => .ok ([], s)
  | d :: ds =>
    match RedisService.checkRateLimit (s.tick d) key limit window with
    | .error e => .error e
    | .ok (r, s') =>
      match rlRun s' key limit window ds with
      | .error e => .error e
      | .ok (bs, s'') => .ok ((r.allowed, r.remaining) :: bs, s'')

/-! Claim theorems. -/

/-- C9: `releaseLock(key)` deletes the lock key unconditionally — for every
state, whatever value or owner token the key holds, the key is removed and
no owner comparison happens — and it returns true exactly when a live key
was there to delete. -/
theorem C9_releaseLock_unconditional_delete (s : RedisState) (key : String) :
    (RedisService.releaseLock s key).1 = (s.lookup ("lock:" ++ key)).isSome ∧
    ((RedisService.releaseLock s key).2).store ("lock:" ++ key) = none := by
  constructor
  · by_cases h : (s.lookup ("lock:" ++ key)).isSome <;>
      simp [RedisService.releaseLock, RedisState.cmdDel, h]
  · simp [RedisService.releaseLock, RedisState.cmdDel, RedisState.removeKey]

/-- C8: `withTenant(tenantId, fn)` disconnects the per-call client on every
exit path: the client is disconnected after the call whether the callback
returns or throws, and a thrown error is propagated to the caller. -/
theorem C8_withTenant_always_releases (ε α : Type) (tenantId : String)
    (callback : TenantPrismaClient → Except ε α) :
    ((PrismaService.withTenant tenantId callback).2).connected = false ∧
    (∀ a : α, callback (PrismaService.scopedClient tenantId) = .ok a →
      (PrismaService.withTenant tenantId callback).1 = .ok a) ∧
    (∀ e : ε, callback (PrismaService.scopedClient tenantId) = .error e →
      (PrismaService.withTenant tenantId callback).1 = .error e) := by
  refine ⟨rfl, ?_, ?_⟩ <;> intro x h <;> simpa [PrismaService.withTenant] using h

/-- Witness for C8 at a concrete tenant and a throwing callback. -/
theorem C8_witness :
    ((PrismaService.withTenant "t1" (fun _ => (.error "boom" : Except String Nat))).2).connected
      = false ∧
    (PrismaService.withTenant "t1" (fun _ => (.error "boom" : Except String Nat))).1
      = .error "boom" :=
  ⟨(C8_withTenant_always_releases String Nat "t1" (fun _ => .error "boom")).1,
   (C8_withTenant_always_releases String Nat "t1" (fun _ => .error "boom")).2.2 "boom" rfl⟩

/-- C4 counterexample: at the concrete input `CacheService.set emptyState
"k" (Json.str "v") none` — a cache set with no ttl supplied — the stored
entry carries the 600-second default expiry, and the value is gone once
those 600 seconds have elapsed, so it is not remembered forever. -/
theorem C4_counterexample :
    (CacheService.set emptyState "k" (Json.str "v") none).map
        (fun s1 => ((s1.store "k").map Entry.expireAt,
                    CacheService.get (s1.tick CACHE_TTL.MEDIUM) "k" none))
      = .ok (some (some 600), .ok Json.null) := rfl

/-- C4 amended: a set with no ttl through `RedisService.set` stores the
entry with no expiry (it stays visible after any delay), but
`CacheService.set` with no ttl arms the `CACHE_TTL.MEDIUM` (600 s) default
expiry instead of remembering the entry forever. -/
theorem C4_amended_no_ttl_expiry (s : RedisState) (key : String) (v : StoredVal) (j : Json) :
    (RedisService.set s key v none).store key = some { val := .str v, expireAt := none } ∧
    (∀ dt : Nat, ((RedisService.set s key v none).tick dt).lookup key
        = some { val := .str v, expireAt := none }) ∧
    (CacheService.set s key j none).map (fun s1 => (s1.store key).map Entry.expireAt)
      = .ok (some (some (s.now + CACHE_TTL.MEDIUM))) := by
  refine ⟨by simp [RedisService.set, RedisState.cmdSet, RedisState.setEntry], ?_, ?_⟩
  · intro dt
    simp [RedisService.set, RedisState.cmdSet, RedisState.setEntry, RedisState.lookup,
      RedisState.tick, Entry.liveAt]
  · simp [CacheService.set, CacheService.generateKey, optTenant, optTtl, optTags,
      RedisService.setJSON, RedisService.set, RedisState.cmdSetex, RedisState.setEntry,
      CACHE_TTL.MEDIUM, Except.map]

/-- C1: when `acquireLock(key, ttl)` succeeds, any second acquisition
attempted while the lock is live (strictly less than `ttl` seconds later,
no release in between) returns false, and any acquisition attempted once
the TTL has elapsed (at least `ttl` seconds later) returns true. -/
theorem C1_lock_single_owner (s : RedisState) (key : String) (ttl : Nat) (s1 : RedisState)
    (h : RedisService.acquireLock s key ttl = (true, s1)) :
    (∀ dt ttl2 : Nat, dt < ttl → (RedisService.acquireLock (s1.tick dt) key ttl2).1 = false) ∧
    (∀ dt ttl2 : Nat, ttl ≤ dt → (RedisService.acquireLock (s1.tick dt) key ttl2).1 = true) := by
  cases hl : s.lookup ("lock:" ++ key) with
  | some e => simp [RedisService.acquireLock, RedisState.cmdSetNxEx, hl] at h
  | none =>
    simp [RedisService.acquireLock, RedisState.cmdSetNxEx, hl] at h
    subst h
    constructor <;> intro dt ttl2 hdt
    · have hlt : s.now + dt < s.now + ttl := by omega
      simp [RedisService.acquireLock, RedisState.cmdSetNxEx, RedisState.lookup,
        RedisState.tick, RedisState.setEntry, Entry.liveAt, hlt]
    · have hge : ¬ s.now + dt < s.now + ttl := by omega
      simp [RedisService.acquireLock, RedisState.cmdSetNxEx, RedisState.lookup,
        RedisState.tick, RedisState.setEntry, Entry.liveAt, hge]

/-- Witness for C1: acquire a lock with a 5-second TTL on the empty store;
re-acquisition 4 seconds later fails, re-acquisition 5 seconds later
succeeds. -/
theorem C1_witness :
    (RedisService.acquireLock (((RedisService.acquireLock emptyState "l" 5).2).tick 4) "l" 7).1
      = false ∧
    (RedisService.acquireLock (((RedisService.acquireLock emptyState "l" 5).2).tick 5) "l" 7).1
      = true :=
  ⟨(C1_lock_single_owner emptyState "l" 5 (RedisService.acquireLock emptyState "l" 5).2 rfl).1
      4 7 (by decide),
   (C1_lock_single_owner emptyState "l" 5 (RedisService.acquireLock emptyState "l" 5).2 rfl).2
      5 7 (by decide)⟩

/-- C3: the window counter's expiry is armed, to `window` seconds, exactly
on the increment that creates the counter (0 to 1), and an increment of an
existing counter (value at least 1, i.e. nonzero) leaves the expiry exactly
as it was — no call sequence can extend the current window. -/
theorem C3_window_expiry_armed_once (s : RedisState) (key : String) (limit : Int) (window : Nat) :
    (s.lookup (REDIS_KEYS.RATE_LIMIT key) = none →
      (RedisService.checkRateLimit s key limit window).map
          (fun rs => rs.2.store (REDIS_KEYS.RATE_LIMIT key))
        = .ok (some { val := .str (.json (.num 1)), expireAt := some (s.now + window) })) ∧
    (∀ (n : Int) (exp : Option Nat), n ≠ 0 →
      s.lookup (REDIS_KEYS.RATE_LIMIT key)
        = some { val := .str (.json (.num n)), expireAt := exp } →
      (RedisService.checkRateLimit s key limit window).map
          (fun rs => rs.2.store (REDIS_KEYS.RATE_LIMIT key))
        = .ok (some { val := .str (.json (.num (n + 1))), expireAt := exp })) := by
  constructor
  · intro h
    have hl : (s.setEntry (REDIS_KEYS.RATE_LIMIT key)
          { val := .str (.json (.num 1)), expireAt := none }).lookup (REDIS_KEYS.RATE_LIMIT key)
        = some { val := .str (.json (.num 1)), expireAt := none } := by
      simp [Entry.liveAt]
    simp [RedisService.checkRateLimit, RedisState.cmdIncr_fresh s _ h,
      RedisState.cmdExpire_live _ _ _ window hl, Except.map]
  · intro n exp hn h
    have hne : ¬ (n + 1 = (1 : Int)) := by omega
    simp [RedisService.checkRateLimit, RedisState.cmdIncr_num s _ n exp h, hne,
      Except.map]

/-- A state holding an already-running window counter at 2, for the C3
witness. -/
def c3State : RedisState :=
  emptyState.setEntry (REDIS_KEYS.RATE_LIMIT "x")
    { val := .str (.json (.num 2)), expireAt := some 60 }

/-- Witness for C3: a first increment on the empty store arms the
60-second expiry; an increment of a counter already at 2 keeps it. -/
theorem C3_witness :
    (RedisService.checkRateLimit emptyState "x" 3 60).map
        (fun rs => rs.2.store (REDIS_KEYS.RATE_LIMIT "x"))
      = .ok (some { val := .str (.json (.num 1)), expireAt := some (emptyState.now + 60) }) ∧
    (RedisService.checkRateLimit c3State "x" 3 60).map
        (fun rs => rs.2.store (REDIS_KEYS.RATE_LIMIT "x"))
      = .ok (some { val := .str (.json (.num (2 + 1))), expireAt := some 60 }) :=
  ⟨(C3_window_expiry_armed_once emptyState "x" 3 60).1 rfl,
   (C3_window_expiry_armed_once c3State "x" 3 60).2 2 (some 60) (by decide) rfl⟩

/-- C2: from a fresh window, `checkRateLimit(key, 3, 60)` called four times
within the window answers allowed = true, true, true, false with remaining
2, 1, 0, 0; a fifth call once the window has elapsed answers allowed = true
with the stored counter reset to 1 (and a fresh 60-second expiry); and in
general every result satisfies allowed = (count ≤ limit) and
remaining = max 0 (limit - count), where count is the incremented counter
value. -/
theorem C2_fixed_window_rate_limit (s : RedisState) (key : String) (d1 d2 d3 d4 : Nat)
    (h : s.store (REDIS_KEYS.RATE_LIMIT key) = none)
    (hin : d1 + d2 + d3 < 60) (hout : 60 ≤ d1 + d2 + d3 + d4) :
    ((rlRun s key 3 60 [0, d1, d2, d3, d4]).map
          (fun p => (p.1, p.2.store (REDIS_KEYS.RATE_LIMIT key)))
        = .ok ([(true, 2), (true, 1), (true, 0), (false, 0), (true, 2)],
            some { val := .str (.json (.num 1)),
                   expireAt := some (s.now + d1 + d2 + d3 + d4 + 60) })) ∧
    (∀ (s' : RedisState) (key' : String) (limit : Int) (window : Nat) (current : Int)
        (t1 t2 : RedisState) (r : RedisService.RateLimitResult),
      s'.cmdIncr (REDIS_KEYS.RATE_LIMIT key') = .ok (current, t1) →
      RedisService.checkRateLimit s' key' limit window = .ok (r, t2) →
      r.allowed = decide (current ≤ limit) ∧ r.remaining = max 0 (limit - current)) := by
  constructor
  · have hv1 : s.now + d1 < s.now + 60 := by omega
    have hv2 : s.now + d1 + d2 < s.now + 60 := by omega
    have hv3 : s.now + d1 + d2 + d3 < s.now + 60 := by omega
    have hv5 : ¬ s.now + d1 + d2 + d3 + d4 < s.now + 60 := by omega
    simp [rlRun, RedisService.checkRateLimit, RedisState.cmdIncr, RedisState.cmdExpire,
      RedisState.cmdTtl, RedisState.lookup, RedisState.setEntry, RedisState.tick,
      Entry.liveAt, StoredVal.asInt, Except.map, h, hv1, hv2, hv3, hv5,
      show max (0 : Int) 2 = 2 from by decide, show max (0 : Int) 1 = 1 from by decide,
      show max (0 : Int) 0 = 0 from by decide, show max (0 : Int) (-1) = 0 from by decide]
  · intro s' key' limit window current t1 t2 r hincr hcheck
    simp only [RedisService.checkRateLimit, hincr, Except.ok.injEq, Prod.mk.injEq] at hcheck
    obtain ⟨h1, -⟩ := hcheck
    subst h1
    exact ⟨rfl, rfl⟩

/-- Witness for C2: the whole scenario on the empty store with the four
calls back to back and the fifth 60 seconds later. -/
theorem C2_witness :
    ((rlRun emptyState "x" 3 60 [0, 0, 0, 0, 60]).map
          (fun p => (p.1, p.2.store (REDIS_KEYS.RATE_LIMIT "x")))
        = .ok ([(true, 2), (true, 1), (true, 0), (false, 0), (true, 2)],
            some { val := .str (.json (.num 1)),
                   expireAt := some (emptyState.now + 0 + 0 + 0 + 60 + 60) })) ∧
    (∀ (s' : RedisState) (key' : String) (limit : Int) (window : Nat) (current : Int)
        (t1 t2 : RedisState) (r : RedisService.RateLimitResult),
      s'.cmdIncr (REDIS_KEYS.RATE_LIMIT key') = .ok (current, t1) →
      RedisService.checkRateLimit s' key' limit window = .ok (r, t2) →
      r.allowed = decide (current ≤ limit) ∧ r.remaining = max 0 (limit - current)) :=
  C2_fixed_window_rate_limit emptyState "x" 0 0 0 60 rfl (by decide) (by decide)

/-- The member list of the set stored at `k`, `[]` when `k` is missing or
holds a string. -/
def tagMembers (s : RedisState) (k : String) : List String :=
  match s.lookup k with
  | some e =>
    match e.val with
    | .sset ms => ms
    | .str _ => []
  | none => []

@[simp] theorem RedisState.cmdSetex_now (s : RedisState) (k : String) (t : Nat) (v : StoredVal) :
    (s.cmdSetex k t v).now = s.now := rfl

@[simp] theorem RedisState.cmdSetex_store (s : RedisState) (k : String) (t : Nat) (v : StoredVal)
    (K : String) :
    (s.cmdSetex k t v).store K
      = if K = k then some { val := .str v, expireAt := some (s.now + t) } else s.store K := rfl

theorem RedisState.liveAt_of_lookup (s : RedisState) (k : String) (e : Entry)
    (h : s.lookup k = some e) : e.liveAt s.now = true := by
  unfold RedisState.lookup at h
  cases hs : s.store k <;> rw [hs] at h
  · simp at h
  · rename_i e0
    have h' : (if e0.liveAt s.now then some e0 else none) = some e := h
    by_cases hl : e0.liveAt s.now = true
    · rw [if_pos hl] at h'
      injection h' with h2
      subst h2
      exact hl
    · rw [if_neg hl] at h'
      simp at h'

theorem RedisState.setEntry_setEntry_self (s : RedisState) (k : String) (e e' : Entry) :
    (s.setEntry k e).setEntry k e' = s.setEntry k e' := by
  simp only [RedisState.setEntry]
  congr 1
  funext k'
  by_cases h : k' = k <;> simp [h]

theorem RedisState.cmdSadd_ok (s : RedisState) (k m : String) (n : Nat) (s₁ : RedisState)
    (h : s.cmdSadd k m = .ok (n, s₁)) :
    s₁.now = s.now ∧ ∀ K, K ≠ k → s₁.store K = s.store K := by
  unfold RedisState.cmdSadd at h
  cases hl : s.lookup k <;> rw [hl] at h
  · simp only [Except.ok.injEq, Prod.mk.injEq] at h
    obtain ⟨-, h2⟩ := h
    subst h2
    exact ⟨rfl, fun K hK => by simp [hK]⟩
  · rename_i e
    obtain ⟨ev, ee⟩ := e
    cases ev with
    | str sv =>
      have h' : (Except.error "WRONGTYPE" : Except String (Nat × RedisState))
          = .ok (n, s₁) := h
      simp at h'
    | sset ms =>
      have h' : (if m ∈ ms then Except.ok (0, s)
          else Except.ok (1, s.setEntry k { val := RVal.sset (ms ++ [m]), expireAt := ee }))
          = (Except.ok (n, s₁) : Except String (Nat × RedisState)) := h
      by_cases hm : m ∈ ms
      · rw [if_pos hm] at h'
        injection h' with h2
        injection h2 with h3 h4
        subst h4
        exact ⟨rfl, fun K hK => rfl⟩
      · rw [if_neg hm] at h'
        injection h' with h2
        injection h2 with h3 h4
        subst h4
        exact ⟨rfl, fun K hK => by simp [hK]⟩

theorem RedisState.cmdExpire_snd (s : RedisState) (k : String) (secs : Nat) :
    ((s.cmdExpire k secs).2).now = s.now ∧
    ∀ K, K ≠ k → ((s.cmdExpire k secs).2).store K = s.store K := by
  unfold RedisState.cmdExpire
  cases hl : s.lookup k <;> simp only [hl] <;>
    refine ⟨by simp, fun K hK => by simp [hK]⟩

/-- One-character keys can never collide with a `tag:`-prefixed key. -/
theorem one_char_ne_tag (x t : String) (hx : x.length = 1) : x ≠ "tag:" ++ t := by
  intro h
  have h2 := congrArg String.length h
  rw [String.length_append, hx] at h2
  have e2 : "tag:".length = 4 := rfl
  omega

/-- What `CacheService.set` with a single tag and no tenant does to the tag
set: the new key is a member, every previous member is kept, and the tag
set's expiry is re-armed to one day from now. -/
theorem CacheService.set_single_tag (s : RedisState) (key t : String) (v : Json)
    (s' : RedisState) (hkt : key ≠ "tag:" ++ t)
    (h : CacheService.set s key v (some { tags := some [t] }) = .ok s') :
    ∃ ms : List String, key ∈ ms ∧
      (∀ x ∈ tagMembers s ("tag:" ++ t), x ∈ ms) ∧
      s'.now = s.now ∧
      s'.store ("tag:" ++ t)
        = some { val := .sset ms, expireAt := some (s.now + CACHE_TTL.DAY) } := by
  have hMED : ¬ (CACHE_TTL.MEDIUM = 0) := by decide
  have hne : ¬ ("tag:" ++ t = key) := fun hh => hkt hh.symm
  simp only [CacheService.set, optTtl, optTenant, optTags, CacheService.generateKey,
    RedisService.setJSON, RedisService.set, hMED, if_false, CacheService.addToTags] at h
  have hsJl : ∀ r, (s.cmdSetex key CACHE_TTL.MEDIUM (.json v)).lookup ("tag:" ++ t) = r →
      s.lookup ("tag:" ++ t) = r := by
    intro r hr
    rwa [RedisState.cmdSetex, RedisState.lookup_setEntry, if_neg hne] at hr
  have hsJl' : (s.cmdSetex key CACHE_TTL.MEDIUM (.json v)).lookup ("tag:" ++ t)
      = s.lookup ("tag:" ++ t) := by
    rw [RedisState.cmdSetex, RedisState.lookup_setEntry, if_neg hne]
  cases hT : s.lookup ("tag:" ++ t) with
  | none =>
    have hsadd : RedisService.sadd (s.cmdSetex key CACHE_TTL.MEDIUM (.json v))
        ("tag:" ++ t) key
        = .ok (1, (s.cmdSetex key CACHE_TTL.MEDIUM (.json v)).setEntry ("tag:" ++ t)
            { val := .sset [key], expireAt := none }) := by
      simp [RedisService.sadd, RedisState.cmdSadd, hsJl', hT]
    rw [hsadd] at h
    have hA : ((s.cmdSetex key CACHE_TTL.MEDIUM (.json v)).setEntry ("tag:" ++ t)
        { val := .sset [key], expireAt := none }).lookup ("tag:" ++ t)
        = some { val := .sset [key], expireAt := none } := by
      simp [Entry.liveAt]
    simp only [RedisService.expire, RedisState.cmdExpire_live _ _ _ _ hA,
      CacheService.addToTags, Except.ok.injEq] at h
    subst h
    refine ⟨[key], by simp, ?_, by simp, by simp⟩
    simp [tagMembers, hT]
  | some e =>
    obtain ⟨ev, ee⟩ := e
    have hlive := RedisState.liveAt_of_lookup s _ _ hT
    cases ev with
    | str sv =>
      have hsadd : RedisService.sadd (s.cmdSetex key CACHE_TTL.MEDIUM (.json v))
          ("tag:" ++ t) key = .error "WRONGTYPE" := by
        simp [RedisService.sadd, RedisState.cmdSadd, hsJl', hT]
      rw [hsadd] at h
      simp at h
    | sset ms0 =>
      by_cases hm : key ∈ ms0
      · have hsadd : RedisService.sadd (s.cmdSetex key CACHE_TTL.MEDIUM (.json v))
            ("tag:" ++ t) key
            = .ok (0, s.cmdSetex key CACHE_TTL.MEDIUM (.json v)) := by
          simp [RedisService.sadd, RedisState.cmdSadd, hsJl', hT, hm]
        rw [hsadd] at h
        have hB : (s.cmdSetex key CACHE_TTL.MEDIUM (.json v)).lookup ("tag:" ++ t)
            = some { val := .sset ms0, expireAt := ee } := by
          rw [hsJl', hT]
        simp only [RedisService.expire, RedisState.cmdExpire_live _ _ _ _ hB,
          CacheService.addToTags, Except.ok.injEq] at h
        subst h
        refine ⟨ms0, hm, ?_, by simp, by simp⟩
        simp [tagMembers, hT]
      · have hsadd : RedisService.sadd (s.cmdSetex key CACHE_TTL.MEDIUM (.json v))
            ("tag:" ++ t) key
            = .ok (1, (s.cmdSetex key CACHE_TTL.MEDIUM (.json v)).setEntry ("tag:" ++ t)
                { val := .sset (ms0 ++ [key]), expireAt := ee }) := by
          simp [RedisService.sadd, RedisState.cmdSadd, hsJl', hT, hm]
        rw [hsadd] at h
        have hlive2 : Entry.liveAt { val := RVal.sset (ms0 ++ [key]), expireAt := ee }
            (s.cmdSetex key CACHE_TTL.MEDIUM (.json v)).now = true := by
          simpa [Entry.liveAt] using hlive
        have hB : ((s.cmdSetex key CACHE_TTL.MEDIUM (.json v)).setEntry ("tag:" ++ t)
            { val := .sset (ms0 ++ [key]), expireAt := ee }).lookup ("tag:" ++ t)
            = some { val := .sset (ms0 ++ [key]), expireAt := ee } := by
          rw [RedisState.lookup_setEntry_self, if_pos hlive2]
        simp only [RedisService.expire, RedisState.cmdExpire_live _ _ _ _ hB,
          CacheService.addToTags, Except.ok.injEq] at h
        subst h
        refine ⟨ms0 ++ [key], by simp, ?_, by simp, by simp⟩
        intro x hx
        simp [tagMembers, hT] at hx
        simp [hx]

theorem RedisService.set_now (s : RedisState) (k : String) (v : StoredVal) (ttl : Option Nat) :
    (RedisService.set s k v ttl).now = s.now := by
  unfold RedisService.set
  cases ttl
  · rfl
  · rename_i t
    by_cases ht : t = 0 <;> simp [ht, RedisState.cmdSet, RedisState.cmdSetex]

/-- A tag set that already carries the one-day expiry and holds the cache
key keeps exactly that entry through the rest of the `addToTags` loop: a
later iteration on the same tag key re-adds an existing member (a no-op)
and re-arms the same expiry, and iterations on other keys do not touch
it. -/
theorem CacheService.addToTags_preserves (N : Nat) (cacheKey : String)
    (tenant : Option String) (ms : List String) (K : String) (hmem : cacheKey ∈ ms) :
    ∀ (tags : List String) (s s' : RedisState),
      s.now = N →
      s.store K = some { val := .sset ms, expireAt := some (N + CACHE_TTL.DAY) } →
      CacheService.addToTags s cacheKey tags tenant = .ok s' →
      s'.now = N ∧
      s'.store K = some { val := .sset ms, expireAt := some (N + CACHE_TTL.DAY) } := by
  intro tags
  induction tags with
  | nil =>
    intro s s' hnow hK h
    simp only [CacheService.addToTags, Except.ok.injEq] at h
    subst h
    exact ⟨hnow, hK⟩
  | cons tag0 rest ih =>
    intro s s' hnow hK h
    simp only [CacheService.addToTags] at h
    cases hs : RedisService.sadd s (CacheService.generateKey ("tag:" ++ tag0) tenant) cacheKey with
    | error e =>
      rw [hs] at h
      exact absurd h (by simp)
    | ok p =>
      obtain ⟨n1, sA⟩ := p
      rw [hs] at h
      replace h : CacheService.addToTags
          ((RedisService.expire sA (CacheService.generateKey ("tag:" ++ tag0) tenant)
            CACHE_TTL.DAY).2) cacheKey rest tenant = .ok s' := h
      by_cases hKK : CacheService.generateKey ("tag:" ++ tag0) tenant = K
      · subst hKK
        have hDAY : (0 : Nat) < CACHE_TTL.DAY := by decide
        have hlv : s.now < N + CACHE_TTL.DAY := by omega
        have hlk : s.lookup (CacheService.generateKey ("tag:" ++ tag0) tenant)
            = some { val := .sset ms, expireAt := some (N + CACHE_TTL.DAY) } := by
          unfold RedisState.lookup
          rw [hK]
          simp [Entry.liveAt, hlv]
        have hs2 : RedisService.sadd s (CacheService.generateKey ("tag:" ++ tag0) tenant)
            cacheKey = .ok (0, s) := by
          simp [RedisService.sadd, RedisState.cmdSadd, hlk, hmem]
        rw [hs2] at hs
        have hsA : s = sA := by
          simp only [Except.ok.injEq, Prod.mk.injEq] at hs
          exact hs.2
        rw [← hsA] at h
        rw [RedisService.expire, RedisState.cmdExpire_live _ _ _ _ hlk] at h
        replace h : CacheService.addToTags
            (s.setEntry (CacheService.generateKey ("tag:" ++ tag0) tenant)
              { val := RVal.sset ms, expireAt := some (s.now + CACHE_TTL.DAY) })
            cacheKey rest tenant = .ok s' := h
        exact ih (s.setEntry (CacheService.generateKey ("tag:" ++ tag0) tenant)
            { val := RVal.sset ms, expireAt := some (s.now + CACHE_TTL.DAY) }) s'
          (by simp [hnow]) (by simp [hnow]) h
      · have hs' : s.cmdSadd (CacheService.generateKey ("tag:" ++ tag0) tenant) cacheKey
            = .ok (n1, sA) := hs
        obtain ⟨hAnow, hAstore⟩ := RedisState.cmdSadd_ok _ _ _ _ _ hs'
        obtain ⟨hEnow, hEstore⟩ :=
          RedisState.cmdExpire_snd sA (CacheService.generateKey ("tag:" ++ tag0) tenant)
            CACHE_TTL.DAY
        have hKne : K ≠ CacheService.generateKey ("tag:" ++ tag0) tenant :=
          fun hh => hKK hh.symm
        have hMnow : ((RedisService.expire sA
            (CacheService.generateKey ("tag:" ++ tag0) tenant) CACHE_TTL.DAY).2).now = N := by
          rw [RedisService.expire, hEnow, hAnow, hnow]
        have hMstore : ((RedisService.expire sA
            (CacheService.generateKey ("tag:" ++ tag0) tenant) CACHE_TTL.DAY).2).store K
            = some { val := .sset ms, expireAt := some (N + CACHE_TTL.DAY) } := by
          rw [RedisService.expire, hEstore K hKne, hAstore K hKne, hK]
        exact ih _ s' hMnow hMstore h

/-- After a successful `addToTags`, the clock is unchanged and every listed
tag's set holds the cache key as a member under a fresh one-day expiry. -/
theorem CacheService.addToTags_tags :
    ∀ (tags : List String) (s : RedisState) (cacheKey : String) (tenant : Option String)
      (s' : RedisState),
      CacheService.addToTags s cacheKey tags tenant = .ok s' →
      s'.now = s.now ∧
      ∀ tag ∈ tags, ∃ ms, cacheKey ∈ ms ∧
        s'.store (CacheService.generateKey ("tag:" ++ tag) tenant)
          = some { val := .sset ms, expireAt := some (s.now + CACHE_TTL.DAY) } := by
  intro tags
  induction tags with
  | nil =>
    intro s cacheKey tenant s' h
    simp only [CacheService.addToTags, Except.ok.injEq] at h
    subst h
    exact ⟨rfl, by simp⟩
  | cons tag0 rest ih =>
    intro s cacheKey tenant s' h
    simp only [CacheService.addToTags] at h
    cases hs : RedisService.sadd s (CacheService.generateKey ("tag:" ++ tag0) tenant) cacheKey with
    | error e =>
      rw [hs] at h
      exact absurd h (by simp)
    | ok p =>
      obtain ⟨n1, sA⟩ := p
      rw [hs] at h
      replace h : CacheService.addToTags
          ((RedisService.expire sA (CacheService.generateKey ("tag:" ++ tag0) tenant)
            CACHE_TTL.DAY).2) cacheKey rest tenant = .ok s' := h
      have hM : ∃ ms0, cacheKey ∈ ms0 ∧
          ((RedisService.expire sA (CacheService.generateKey ("tag:" ++ tag0) tenant)
            CACHE_TTL.DAY).2).now = s.now ∧
          ((RedisService.expire sA (CacheService.generateKey ("tag:" ++ tag0) tenant)
            CACHE_TTL.DAY).2).store (CacheService.generateKey ("tag:" ++ tag0) tenant)
            = some { val := .sset ms0, expireAt := some (s.now + CACHE_TTL.DAY) } := by
        cases hT : s.lookup (CacheService.generateKey ("tag:" ++ tag0) tenant) with
        | none =>
          have hs2 : RedisService.sadd s (CacheService.generateKey ("tag:" ++ tag0) tenant)
              cacheKey = .ok (1, s.setEntry (CacheService.generateKey ("tag:" ++ tag0) tenant)
                { val := .sset [cacheKey], expireAt := none }) := by
            simp [RedisService.sadd, RedisState.cmdSadd, hT]
          rw [hs2] at hs
          have hsA : s.setEntry (CacheService.generateKey ("tag:" ++ tag0) tenant)
              { val := RVal.sset [cacheKey], expireAt := none } = sA := by
            simp only [Except.ok.injEq, Prod.mk.injEq] at hs
            exact hs.2
          have hlkA : (s.setEntry (CacheService.generateKey ("tag:" ++ tag0) tenant)
              { val := RVal.sset [cacheKey], expireAt := none }).lookup
                (CacheService.generateKey ("tag:" ++ tag0) tenant)
              = some { val := RVal.sset [cacheKey], expireAt := none } := by
            simp [Entry.liveAt]
          refine ⟨[cacheKey], by simp, ?_, ?_⟩ <;>
            rw [← hsA, RedisService.expire, RedisState.cmdExpire_live _ _ _ _ hlkA] <;> simp
        | some e =>
          obtain ⟨ev, ee⟩ := e
          have hliveE := RedisState.liveAt_of_lookup s _ _ hT
          cases ev with
          | str sv =>
            have hs2 : RedisService.sadd s (CacheService.generateKey ("tag:" ++ tag0) tenant)
                cacheKey = .error "WRONGTYPE" := by
              simp [RedisService.sadd, RedisState.cmdSadd, hT]
            rw [hs2] at hs
            exact absurd hs (by simp)
          | sset ms1 =>
            by_cases hm : cacheKey ∈ ms1
            · have hs2 : RedisService.sadd s (CacheService.generateKey ("tag:" ++ tag0) tenant)
                  cacheKey = .ok (0, s) := by
                simp [RedisService.sadd, RedisState.cmdSadd, hT, hm]
              rw [hs2] at hs
              have hsA : s = sA := by
                simp only [Except.ok.injEq, Prod.mk.injEq] at hs
                exact hs.2
              refine ⟨ms1, hm, ?_, ?_⟩ <;>
                rw [← hsA, RedisService.expire, RedisState.cmdExpire_live _ _ _ _ hT] <;> simp
            · have hs2 : RedisService.sadd s (CacheService.generateKey ("tag:" ++ tag0) tenant)
                  cacheKey
                  = .ok (1, s.setEntry (CacheService.generateKey ("tag:" ++ tag0) tenant)
                      { val := .sset (ms1 ++ [cacheKey]), expireAt := ee }) := by
                simp [RedisService.sadd, RedisState.cmdSadd, hT, hm]
              rw [hs2] at hs
              have hsA : s.setEntry (CacheService.generateKey ("tag:" ++ tag0) tenant)
                  { val := RVal.sset (ms1 ++ [cacheKey]), expireAt := ee } = sA := by
                simp only [Except.ok.injEq, Prod.mk.injEq] at hs
                exact hs.2
              have hlive2 : Entry.liveAt
                  { val := RVal.sset (ms1 ++ [cacheKey]), expireAt := ee } s.now = true := by
                simpa [Entry.liveAt] using hliveE
              have hlkA : (s.setEntry (CacheService.generateKey ("tag:" ++ tag0) tenant)
                  { val := RVal.sset (ms1 ++ [cacheKey]), expireAt := ee }).lookup
                    (CacheService.generateKey ("tag:" ++ tag0) tenant)
                  = some { val := RVal.sset (ms1 ++ [cacheKey]), expireAt := ee } := by
                rw [RedisState.lookup_setEntry_self]
                simp [hlive2]
              refine ⟨ms1 ++ [cacheKey], by simp, ?_, ?_⟩ <;>
                rw [← hsA, RedisService.expire, RedisState.cmdExpire_live _ _ _ _ hlkA] <;> simp
      obtain ⟨ms0, hmem0, hMnow, hMstore⟩ := hM
      obtain ⟨ihn, ihall⟩ := ih _ cacheKey tenant s' h
      constructor
      · rw [ihn, hMnow]
      · intro tag htag
        rcases List.mem_cons.mp htag with rfl | htag2
        · have hpres := CacheService.addToTags_preserves s.now cacheKey tenant ms0
            (CacheService.generateKey ("tag:" ++ tag) tenant) hmem0 rest _ s' hMnow hMstore h
          exact ⟨ms0, hmem0, hpres.2⟩
        · obtain ⟨ms2, hmem2, hst2⟩ := ihall tag htag2
          refine ⟨ms2, hmem2, ?_⟩
          rw [hst2, hMnow]

/-- C5: after tagging "a" and "b" with the same tag, `invalidateTag`
deletes every member key of the tag and then the tag set itself: both gets
come back null and the tag set no longer exists. -/
theorem C5_invalidateTag_clears (s : RedisState) (t : String) (v v' : Json)
    (s1 s2 : RedisState)
    (h1 : CacheService.set s "a" v (some { tags := some [t] }) = .ok s1)
    (h2 : CacheService.set s1 "b" v' (some { tags := some [t] }) = .ok s2) :
    ∃ n s3, CacheService.invalidateTag s2 t none = .ok (n, s3) ∧
      CacheService.get s3 "a" none = .ok .null ∧
      CacheService.get s3 "b" none = .ok .null ∧
      RedisService.redisExists s3 ("tag:" ++ t) = false := by
  obtain ⟨m1, hm1a, hsub1, hn1, hst1⟩ :=
    CacheService.set_single_tag s "a" t v s1 (one_char_ne_tag "a" t rfl) h1
  obtain ⟨m2, hm2b, hsub2, hn2, hst2⟩ :=
    CacheService.set_single_tag s1 "b" t v' s2 (one_char_ne_tag "b" t rfl) h2
  have hDAY : (0 : Nat) < CACHE_TTL.DAY := by decide
  have htm1 : tagMembers s1 ("tag:" ++ t) = m1 := by
    have hlv : s1.now < s.now + CACHE_TTL.DAY := by omega
    unfold tagMembers RedisState.lookup
    rw [hst1]
    simp [Entry.liveAt, hlv]
  have ha2 : "a" ∈ m2 := hsub2 "a" (htm1 ▸ hm1a)
  have hlk2 : s2.lookup ("tag:" ++ t)
      = some { val := .sset m2, expireAt := some (s1.now + CACHE_TTL.DAY) } := by
    have hlv : s2.now < s1.now + CACHE_TTL.DAY := by omega
    unfold RedisState.lookup
    rw [hst2]
    simp [Entry.liveAt, hlv]
  have hsm : RedisService.smembers s2 ("tag:" ++ t) = .ok m2 := by
    simp [RedisService.smembers, RedisState.cmdSmembers, hlk2]
  have hne2 : ¬ (m2.length = 0) := by
    intro hz
    rw [List.length_eq_zero] at hz
    subst hz
    simp at hm2b
  have hsa : ((RedisService.del (RedisService.del s2 m2).2 ["tag:" ++ t]).2).store "a"
      = none := by
    simp [RedisService.del, RedisState.cmdDel_store, ha2]
  have hsb : ((RedisService.del (RedisService.del s2 m2).2 ["tag:" ++ t]).2).store "b"
      = none := by
    simp [RedisService.del, RedisState.cmdDel_store, hm2b]
  have hstag : ((RedisService.del (RedisService.del s2 m2).2 ["tag:" ++ t]).2).store
      ("tag:" ++ t) = none := by
    simp [RedisService.del, RedisState.cmdDel_store]
  refine ⟨(RedisService.del s2 m2).1,
    (RedisService.del (RedisService.del s2 m2).2 ["tag:" ++ t]).2, ?_, ?_, ?_, ?_⟩
  · simp [CacheService.invalidateTag, CacheService.generateKey, hsm, hne2]
  · simp [CacheService.get, CacheService.generateKey, optTenant, RedisService.getJSON,
      RedisState.cmdGet, RedisState.lookup, hsa]
  · simp [CacheService.get, CacheService.generateKey, optTenant, RedisService.getJSON,
      RedisState.cmdGet, RedisState.lookup, hsb]
  · simp [RedisService.redisExists, RedisState.cmdExists, RedisState.lookup, hstag]

/-- The state after tagging "a" on the empty store, for the C5 witness. -/
def c5s1 : RedisState :=
  match CacheService.set emptyState "a" (Json.str "v") (some { tags := some ["t"] }) with
  | .ok s => s
  | .error _ => emptyState

/-- The state after then tagging "b", for the C5 witness. -/
def c5s2 : RedisState :=
  match CacheService.set c5s1 "b" (Json.str "w") (some { tags := some ["t"] }) with
  | .ok s => s
  | .error _ => emptyState

/-- Witness for C5 on the empty store with tag "t" and keys "a", "b". -/
theorem C5_witness :
    ∃ n s3, CacheService.invalidateTag c5s2 "t" none = .ok (n, s3) ∧
      CacheService.get s3 "a" none = .ok .null ∧
      CacheService.get s3 "b" none = .ok .null ∧
      RedisService.redisExists s3 ("tag:" ++ "t") = false :=
  C5_invalidateTag_clears emptyState "t" (Json.str "v") (Json.str "w") c5s1 c5s2 rfl rfl

/-- C6: after every successful `set` that lists tags, each listed tag's
member set contains the effective (tenant-prefixed) key of the new entry,
and that tag set's expiry sits exactly one day (`CACHE_TTL.DAY`) after the
set's time — the member addition refreshed it, so tag bookkeeping cannot
outlive its last member addition by more than one day. -/
theorem C6_tag_member_and_refresh (s : RedisState) (key : String) (v : Json)
    (options : Option CacheOptions) (s' : RedisState) (tags : List String) (tag : String)
    (h : CacheService.set s key v options = .ok s')
    (htags : optTags options = some tags) (hmem : tag ∈ tags) :
    ∃ ms, CacheService.generateKey key (optTenant options) ∈ ms ∧
      s'.store (CacheService.generateKey ("tag:" ++ tag) (optTenant options))
        = some { val := .sset ms, expireAt := some (s.now + CACHE_TTL.DAY) } := by
  simp only [CacheService.set, htags] at h
  obtain ⟨hn, hall⟩ := CacheService.addToTags_tags tags _ _ _ _ h
  obtain ⟨ms, hmem2, hst⟩ := hall tag hmem
  refine ⟨ms, hmem2, ?_⟩
  rw [hst]
  simp [RedisService.setJSON, RedisService.set_now]

/-- Witness for C6: tagging "a" with tag "t" on the empty store puts "a"
into the tag set with the one-day expiry. -/
theorem C6_witness :
    ∃ ms, CacheService.generateKey "a" (optTenant (some { tags := some ["t"] })) ∈ ms ∧
      c5s1.store (CacheService.generateKey ("tag:" ++ "t")
          (optTenant (some { tags := some ["t"] })))
        = some { val := .sset ms, expireAt := some (emptyState.now + CACHE_TTL.DAY) } :=
  C6_tag_member_and_refresh emptyState "a" (Json.str "v") (some { tags := some ["t"] })
    c5s1 ["t"] "t" rfl rfl (by simp)

/-- C7: on a cold key, `getOrSet(k, f)` invokes the factory exactly once —
the first call computes, stores and returns the factory value, advancing
the factory state once; the second sequential call returns the very same
value from the cache with the store and the factory state untouched. -/
theorem C7_getOrSet_single_computation (s : RedisState) (key : String) (σ : Type)
    (factory : σ → Json × σ) (fs : σ)
    (h1 : s.lookup key = none)
    (h2 : (factory fs).1.isNull = false) :
    CacheService.getOrSet s key factory fs none
      = .ok ((factory fs).1,
          s.setEntry key { val := .str (.json (factory fs).1),
                           expireAt := some (s.now + CACHE_TTL.MEDIUM) },
          (factory fs).2) ∧
    CacheService.getOrSet
        (s.setEntry key { val := .str (.json (factory fs).1),
                          expireAt := some (s.now + CACHE_TTL.MEDIUM) })
        key factory (factory fs).2 none
      = .ok ((factory fs).1,
          s.setEntry key { val := .str (.json (factory fs).1),
                           expireAt := some (s.now + CACHE_TTL.MEDIUM) },
          (factory fs).2) := by
  have hlive : s.now < s.now + CACHE_TTL.MEDIUM := by
    have : 0 < CACHE_TTL.MEDIUM := by decide
    omega
  constructor
  · simp [CacheService.getOrSet, CacheService.get, CacheService.generateKey, optTenant,
      optTtl, optTags, RedisService.getJSON, RedisState.cmdGet, h1, Json.isNull,
      CacheService.set, RedisService.setJSON, RedisService.set, RedisState.cmdSetex,
      CACHE_TTL.MEDIUM]
  · simp [CacheService.getOrSet, CacheService.get, CacheService.generateKey, optTenant,
      RedisService.getJSON, RedisState.cmdGet, Entry.liveAt, hlive,
      StoredVal.isFalsy, StoredVal.parseJson, h2]

/-- Witness for C7: a counting factory on the empty store; the two calls
agree and the counter advances exactly once. -/
theorem C7_witness :
    CacheService.getOrSet emptyState "k" (fun n : Nat => (Json.num 100, n + 1)) 0 none
      = .ok (Json.num 100,
          emptyState.setEntry "k" { val := .str (.json (Json.num 100)),
                                    expireAt := some (emptyState.now + CACHE_TTL.MEDIUM) }, 1) ∧
    CacheService.getOrSet
        (emptyState.setEntry "k" { val := .str (.json (Json.num 100)),
                                   expireAt := some (emptyState.now + CACHE_TTL.MEDIUM) })
        "k" (fun n : Nat => (Json.num 100, n + 1)) 1 none
      = .ok (Json.num 100,
          emptyState.setEntry "k" { val := .str (.json (Json.num 100)),
                                    expireAt := some (emptyState.now + CACHE_TTL.MEDIUM) }, 1) :=
  C7_getOrSet_single_computation emptyState "k" Nat (fun n => (Json.num 100, n + 1)) 0 rfl rfl

/-- C10: a value that decodes to null is never a cache hit: a missing key,
bytes that are not valid JSON, and bytes decoding to JSON null all make
`get` answer null; whenever `get` answers null, `getOrSet` invokes the
factory (storing its value and advancing the factory state); hence a
factory that returns null is invoked again on the very next `getOrSet` of
the same key. -/
theorem C10_null_never_cached (s : RedisState) (key : String) :
    (s.lookup key = none → CacheService.get s key none = .ok .null) ∧
    (∀ (raw : String) (exp : Option Nat),
      s.lookup key = some { val := .str (.notJson raw), expireAt := exp } →
      CacheService.get s key none = .ok .null) ∧
    (∀ exp : Option Nat,
      s.lookup key = some { val := .str (.json .null), expireAt := exp } →
      CacheService.get s key none = .ok .null) ∧
    (∀ (σ : Type) (factory : σ → Json × σ) (fs : σ),
      CacheService.get s key none = .ok .null →
      CacheService.getOrSet s key factory fs none
        = .ok ((factory fs).1,
            s.setEntry key { val := .str (.json (factory fs).1),
                             expireAt := some (s.now + CACHE_TTL.MEDIUM) },
            (factory fs).2)) ∧
    (∀ (σ : Type) (factory : σ → Json × σ) (fs : σ),
      s.lookup key = none → (factory fs).1 = .null →
      ∃ s1, CacheService.getOrSet s key factory fs none = .ok (.null, s1, (factory fs).2) ∧
        CacheService.getOrSet s1 key factory (factory fs).2 none
          = .ok ((factory (factory fs).2).1,
              s1.setEntry key { val := .str (.json (factory (factory fs).2).1),
                                expireAt := some (s.now + CACHE_TTL.MEDIUM) },
              (factory (factory fs).2).2)) := by
  have hlive : s.now < s.now + CACHE_TTL.MEDIUM := by
    have : 0 < CACHE_TTL.MEDIUM := by decide
    omega
  have hget0 : s.lookup key = none → CacheService.get s key none = .ok .null := by
    intro h
    simp [CacheService.get, CacheService.generateKey, optTenant, RedisService.getJSON,
      RedisState.cmdGet, h]
  have hmiss : ∀ (σ : Type) (factory : σ → Json × σ) (fs : σ),
      CacheService.get s key none = .ok .null →
      CacheService.getOrSet s key factory fs none
        = .ok ((factory fs).1,
            s.setEntry key { val := .str (.json (factory fs).1),
                             expireAt := some (s.now + CACHE_TTL.MEDIUM) },
            (factory fs).2) := by
    intro σ factory fs hg
    simp [CacheService.getOrSet, hg, Json.isNull, CacheService.set, CacheService.generateKey,
      optTenant, optTtl, optTags, RedisService.setJSON, RedisService.set, RedisState.cmdSetex,
      CACHE_TTL.MEDIUM]
  refine ⟨hget0, ?_, ?_, hmiss, ?_⟩
  · intro raw exp h
    simp [CacheService.get, CacheService.generateKey, optTenant, RedisService.getJSON,
      RedisState.cmdGet, h, StoredVal.isFalsy, StoredVal.parseJson]
  · intro exp h
    simp [CacheService.get, CacheService.generateKey, optTenant, RedisService.getJSON,
      RedisState.cmdGet, h, StoredVal.isFalsy, StoredVal.parseJson]
  · intro σ factory fs h hnull
    refine ⟨s.setEntry key { val := .str (.json (factory fs).1),
                             expireAt := some (s.now + CACHE_TTL.MEDIUM) }, ?_, ?_⟩
    · rw [hmiss σ factory fs (hget0 h), hnull]
    · have hg1 : CacheService.get
          (s.setEntry key { val := .str (.json (factory fs).1),
                            expireAt := some (s.now + CACHE_TTL.MEDIUM) }) key none
          = .ok .null := by
        simp [CacheService.get, CacheService.generateKey, optTenant, RedisService.getJSON,
          RedisState.cmdGet, Entry.liveAt, hlive, hnull, StoredVal.isFalsy,
          StoredVal.parseJson]
      have hMED : ¬ (CACHE_TTL.MEDIUM = 0) := by decide
      simp [CacheService.getOrSet, hg1, Json.isNull, CacheService.set,
        CacheService.generateKey, optTenant, optTtl, optTags, RedisService.setJSON,
        RedisService.set, RedisState.cmdSetex, hMED]

/-- A state whose key "k" holds bytes that are not valid JSON, for the C10
witness. -/
def c10State : RedisState :=
  emptyState.setEntry "k" { val := .str (.notJson "oops"), expireAt := none }

/-- Witness for C10: a missing key reads as null; invalid JSON bytes read
as null; a null-returning factory is re-invoked by a second `getOrSet`. -/
theorem C10_witness :
    CacheService.get emptyState "k" none = .ok .null ∧
    CacheService.get c10State "k" none = .ok .null ∧
    (∃ s1, CacheService.getOrSet emptyState "k"
          (fun n : Nat => (Json.null, n + 1)) 0 none = .ok (.null, s1, 1) ∧
        CacheService.getOrSet s1 "k" (fun n : Nat => (Json.null, n + 1)) 1 none
          = .ok (Json.null,
              s1.setEntry "k" { val := .str (.json Json.null),
                                expireAt := some (emptyState.now + CACHE_TTL.MEDIUM) }, 2)) :=
  ⟨(C10_null_never_cached emptyState "k").1 rfl,
   (C10_null_never_cached c10State "k").2.1 "oops" none rfl,
   (C10_null_never_cached emptyState "k").2.2.2.2 Nat (fun n => (Json.null, n + 1)) 0 rfl rfl⟩

end Shop
